import Mathlib

/-
Shallow embedding of the Batcher core of the gimp-batcher repository:
the per-item export state machine (src/export_layers/export.py), the
file-extension bookkeeping, the Batcher run loop with stop/cleanup
semantics (src/export_layers/batcher.py), the action-installation order,
and the exported-item recording (src/export_layers/exportlayers.py).
Host collaborators that are not under src/ (pygimplib.overwrite,
pygimplib.path, the uniquifier, the host export callables) are modelled
from the specification and marked as such in their doc comments.
-/

namespace GimpBatcher

/-- Run modes of the host application, gimpenums RUN_INTERACTIVE,
RUN_NONINTERACTIVE and RUN_WITH_LAST_VALS, as consumed by the export engine. -/
inductive RunMode where
  | interactive
  | noninteractive
  | withLastVals
deriving DecidableEq, Repr

/-- Statuses of the per-item export state machine
(export.py, class ExportStatuses). -/
inductive ExportStatus where
  | notExportedYet
  | exportSuccessful
  | forceInteractive
  | useDefaultFileExtension
deriving DecidableEq, Repr

/-- Overwrite modes. Modelled from the spec: pygimplib.overwrite is not under
src/; section 4.5 lists REPLACE, SKIP, RENAME_NEW, RENAME_EXISTING and CANCEL,
plus the NOT_SET fast path used when the target path does not exist. -/
inductive OverwriteMode where
  | notSet
  | replace
  | skip
  | renameNew
  | renameExisting
  | cancel
deriving DecidableEq, Repr

/-- Exceptions raised by the export engine (export_errors.ExportCancelError,
InvalidOutputDirectoryError, ExportError); raising is mirrored by returning
an Except.error value. -/
inductive ExportException where
  | exportCancel (message : String)
  | invalidOutputDirectory (message : String) (itemName : String) (fileExtension : String)
  | exportError (message : String) (itemName : String) (fileExtension : String)
deriving DecidableEq, Repr

/-- Boolean test that the first list starts with the second. -/
def listStartsWith : List Char → List Char → Bool
  | _, [] => true
  | [], _ :: _ => false
  | a :: as, b :: bs => a == b && listStartsWith as bs

/-- Boolean test that the second list occurs as a contiguous sublist of the
first, mirroring the Python substring operator. -/
def listHasSublist : List Char → List Char → Bool
  | [], pat => pat.isEmpty
  | a :: as, pat => listStartsWith (a :: as) pat || listHasSublist as pat

/-- Python substring containment test. -/
def strContains (s sub : String) : Bool :=
  listHasSublist s.toList sub.toList

/-- Python str.lower, character by character (file extensions and failure
messages are ASCII, where Char.toLower agrees with Python). -/
def pyLower (s : String) : String :=
  String.mk (s.toList.map Char.toLower)

/-- Splits a character list on a separator character; the result is the list
of groups between separators and is always nonempty. -/
def splitOnChar (sep : Char) : List Char → List (List Char)
  | [] => [[]]
  | c :: rest =>
    match splitOnChar sep rest with
    | [] => if c = sep then [[], []] else [[c]]
    | group :: groups =>
      if c = sep then [] :: group :: groups else (c :: group) :: groups

/-- Splits a filename on periods. -/
def splitOnPeriods (s : String) : List String :=
  (splitOnChar '.' s.toList).map String.mk

/-- export.py, _was_export_canceled_by_user: the failure message, lowercased,
contains "cancelled" or "canceled". -/
def wasExportCanceledByUser (exceptionMessage : String) : Bool :=
  ["cancelled", "canceled"].any (fun message => strContains (pyLower exceptionMessage) message)

/-- export.py, _should_export_again_with_interactive_run_mode: the failure
message, lowercased, contains "calling error" and the current run mode is
RUN_WITH_LAST_VALS or RUN_NONINTERACTIVE. -/
def shouldExportAgainWithInteractiveRunMode
    (exceptionMessage : String) (currentRunMode : RunMode) : Bool :=
  strContains (pyLower exceptionMessage) "calling error"
    && (currentRunMode == RunMode.withLastVals || currentRunMode == RunMode.noninteractive)

/-- export.py, _should_export_again_with_default_file_extension: the file
extension actually used differs from the configured default extension. -/
def shouldExportAgainWithDefaultFileExtension
    (defaultFileExtension fileExtension : String) : Bool :=
  fileExtension != defaultFileExtension

/-- Modelled from the spec: pygimplib.path.get_file_extension is not under
src/. Returns the part of the filename after the last period, or the empty
string when the filename has no period. -/
def getFileExtension (filename : String) : String :=
  let parts := splitOnPeriods filename
  if parts.length ≤ 1 then "" else parts.getLastD ""

/-- Modelled from the spec: pygimplib.path.get_filename_with_new_file_extension
is not under src/. Replaces the file extension of the filename with the new
extension, appending it when the filename has none. -/
def getFilenameWithNewFileExtension (filename newFileExtension : String) : String :=
  let parts := splitOnPeriods filename
  if parts.length ≤ 1 then filename ++ "." ++ newFileExtension
  else String.intercalate "." parts.dropLast ++ "." ++ newFileExtension

/-- Modelled from the spec: pygimplib.path.FilenameValidator.validate is not
under src/; it strips characters that are invalid on the file system. Names in
this development are taken to be already valid, so validation is the identity. -/
def validateName (name : String) : String :=
  name

/-- export.py, _get_unique_substring_position: the position just before the
file extension, where the uniquifying suffix is inserted. -/
def getUniqueSubstringPosition (str fileExtension : String) : Nat :=
  str.length - ("." ++ fileExtension).length

/-- One file format of the registry pygimplib.fileformats.file_formats; only
the extension list is relevant to the export engine. -/
structure FileFormat where
  file_extensions : List String
deriving DecidableEq, Repr

/-- A format with no extensions, used as the list-access default. -/
def emptyFileFormat : FileFormat :=
  { file_extensions := [] }

/-- Whether the format registers the given lowercased extension key. -/
def FileFormat.registersExtension (fmt : FileFormat) (key : String) : Bool :=
  fmt.file_extensions.any (fun e => pyLower e == key)

/-- export.py, class _FileExtension: per-extension mutable state. -/
structure FileExtension where
  is_valid : Bool := true
  processed_count : Nat := 0
deriving DecidableEq, Repr

/-- Index of the last format of the registry whose (lowercased) extension list
contains the given lowercased key. The constructor of _FileExtensionProperties
assigns the shared state object of every format in registry order, so for an
extension registered by several formats the last assignment wins. -/
def formatIndexOf (formats : List FileFormat) (key : String) : Option Nat :=
  match formats with
  | [] => none
  | fileFormat :: rest =>
    match formatIndexOf rest key with
    | some i => some (i + 1)
    | none =>
      if fileFormat.registersExtension key then some 0 else none

/-- Canonical dictionary key used by _FileExtensionProperties: extensions of one
registered format share a single _FileExtension object, every other key owns a
fresh defaultdict entry under its lowercased spelling. -/
def canonicalKey (formats : List FileFormat) (key : String) : Sum Nat String :=
  match formatIndexOf formats (pyLower key) with
  | some i => Sum.inl i
  | none => Sum.inr (pyLower key)

/-- Association-list lookup for the canonical-key table. -/
def lookupTable (table : List (Sum Nat String × FileExtension)) (key : Sum Nat String) :
    Option FileExtension :=
  match table with
  | [] => none
  | (k, v) :: rest => if k = key then some v else lookupTable rest key

/-- export.py, class _FileExtensionProperties: mapping of file extensions to
_FileExtension instances; keys are lowercased, and all extensions of one format
of the registry share a single instance. The defaultdict default is a fresh
_FileExtension (is_valid true, processed_count 0), modelled by a total getter. -/
structure FileExtensionProperties where
  formats : List FileFormat
  table : List (Sum Nat String × FileExtension) := []
deriving DecidableEq, Repr

/-- Dictionary read, export.py line 261: the key is lowercased; a missing key
yields the defaultdict default. -/
def FileExtensionProperties.get (p : FileExtensionProperties) (key : String) : FileExtension :=
  match lookupTable p.table (canonicalKey p.formats key) with
  | some fe => fe
  | none => {}

/-- In-place mutation of the shared _FileExtension object reached through the
given key (Python attribute assignment through the dictionary entry). -/
def FileExtensionProperties.modify (p : FileExtensionProperties) (key : String)
    (f : FileExtension → FileExtension) : FileExtensionProperties :=
  { p with table := (canonicalKey p.formats key, f (p.get key)) :: p.table }

/-- Excerpt of the file-format registry (src/batcher/src/file_formats.py,
lines 271 and 295): the JPEG format registers the extensions jpg, jpeg and jpe,
and the PNG format registers png. -/
def sampleFileFormats : List FileFormat :=
  [{ file_extensions := ["jpg", "jpeg", "jpe"] }, { file_extensions := ["png"] }]

/-- Modelled from the spec: the uniquifier (section 4.4) is not under src/.
It records the names already assigned in one parent scope; the claims below
quantify over top-level items, so a single scope is kept. -/
structure ItemUniquifier where
  seen : List String := []
deriving DecidableEq, Repr

/-- Inserts a string at the given character position. -/
def insertAtPosition (s : String) (position : Nat) (insertion : String) : String :=
  String.mk (s.toList.take position ++ insertion.toList ++ s.toList.drop position)

/-- Modelled from the spec, section 4.4: appends a numeric suffix " (n)" at the
insertion position, incrementing n until the name is not already seen. The fuel
argument bounds the search; seen-list length plus one always suffices. -/
def uniquifySearch (seenNames : List String) (name : String) (position : Nat) :
    Nat → Nat → String
  | 0, n => insertAtPosition name position (" (" ++ toString n ++ ")")
  | Nat.succ fuel, n =>
    let candidate := insertAtPosition name position (" (" ++ toString n ++ ")")
    if seenNames.contains candidate then uniquifySearch seenNames name position fuel (n + 1)
    else candidate

/-- Modelled from the spec, section 4.4: returns the uniquified name and records
it as seen. A name not seen before is kept unchanged. -/
def ItemUniquifier.uniquify (u : ItemUniquifier) (name : String) (position : Nat) :
    String × ItemUniquifier :=
  if u.seen.contains name then
    let newName := uniquifySearch u.seen name position (u.seen.length + 1) 1
    (newName, { seen := u.seen ++ [newName] })
  else
    (name, { seen := u.seen ++ [name] })

/-- The attributes of the batcher that the export engine reads
(export.py refers to them through the exporter argument). -/
structure Exporter where
  defaultFileExtension : String
  initialRunMode : RunMode
  outputDirectory : String
  processNames : Bool
  processExport : Bool
deriving DecidableEq, Repr

/-- External behavior visible to the export engine: the outcome of the host
export callable at each call (indexed by the number of prior calls, so a
stateful callable such as one that fails once and then succeeds is expressible;
none is success, some message is a raised RuntimeError), the file-existence
state consulted by overwrite handling, the overwrite chooser, and the outcome
of directory creation (some message is a raised OSError). -/
structure ExportEnvironment where
  exportCallResult : Nat → RunMode → String → Option String
  fileExists : String → Bool
  choose : String → OverwriteMode
  makeDirsError : Option String

/-- The per-item mutable state threaded through the export engine: the working
item name, the current file extension and overwrite mode stored on the
exporter, the per-run file-extension properties and uniquifier, and the log of
run modes of the underlying export calls made so far (its length is the number
of calls). -/
structure ExportState where
  itemName : String
  rawItemName : String
  currentFileExtension : String
  currentOverwriteMode : OverwriteMode
  fileExtensionProperties : FileExtensionProperties
  uniquifier : ItemUniquifier
  callLog : List RunMode
deriving DecidableEq, Repr

/-- Modelled from the spec: pygimplib.overwrite.handle_overwrite is not under
src/. Section 4.5: when the path does not exist the mode is NOT_SET and the
path is unchanged; otherwise the chooser is consulted. The path rewriting of
RENAME_NEW and RENAME_EXISTING is not needed by the claims below. -/
def handleOverwrite (env : ExportEnvironment) (path : String) : OverwriteMode :=
  if env.fileExists path then env.choose path else OverwriteMode.notSet

/-- export.py, _get_item_filepath, for a top-level item: output directory
followed by the item name. -/
def getItemFilepath (dirpath itemName : String) : String :=
  dirpath ++ "/" ++ itemName

/-- export.py, _get_run_mode: reuse RUN_WITH_LAST_VALS when the extension is
still valid and has been processed before in this run, otherwise use the
configured initial run mode. -/
def getRunMode (exporter : Exporter) (fileExtension : String)
    (props : FileExtensionProperties) : RunMode :=
  let fileExtensionProperty := props.get fileExtension
  if fileExtensionProperty.is_valid && fileExtensionProperty.processed_count > 0 then
    RunMode.withLastVals
  else
    exporter.initialRunMode

/-- export.py, _process_item_name: renames the item in place. Without the force
flag, the default extension is appended when the current file extension equals
the default one, and substituted otherwise; with the force flag the default
extension is substituted. The name is then validated and uniquified with the
suffix anchored just before the extension. -/
def processItemName (exporter : Exporter) (forceDefaultFileExtension : Bool)
    (st : ExportState) : ExportState :=
  let name :=
    if !forceDefaultFileExtension then
      if st.currentFileExtension = exporter.defaultFileExtension then
        st.itemName ++ "." ++ exporter.defaultFileExtension
      else
        getFilenameWithNewFileExtension st.itemName st.currentFileExtension
    else
      getFilenameWithNewFileExtension st.itemName exporter.defaultFileExtension
  let name := validateName name
  let uniquified :=
    st.uniquifier.uniquify name (getUniqueSubstringPosition name (getFileExtension name))
  { st with itemName := uniquified.1, uniquifier := uniquified.2 }

/-- export.py, _export_item_once (the context-manager wrapper adds no behavior
here): one underlying export call, classified by inspecting the failure
message. Cancellation raises; a calling error under a non-interactive mode
requests an interactive retry; a non-default extension is invalidated and a
default-extension retry requested; any other failure is fatal. -/
def exportItemOnce (exporter : Exporter) (env : ExportEnvironment) (runMode : RunMode)
    (outputFilepath fileExtension : String) (st : ExportState) :
    ExportState × Except ExportException ExportStatus :=
  let callIndex := st.callLog.length
  let st := { st with callLog := st.callLog ++ [runMode] }
  match env.exportCallResult callIndex runMode outputFilepath with
  | none => (st, Except.ok ExportStatus.exportSuccessful)
  | some message =>
    if wasExportCanceledByUser message then
      (st, Except.error (ExportException.exportCancel message))
    else if shouldExportAgainWithInteractiveRunMode message runMode then
      (st, Except.ok ExportStatus.forceInteractive)
    else if shouldExportAgainWithDefaultFileExtension
        exporter.defaultFileExtension fileExtension then
      ({ st with fileExtensionProperties :=
          (st.fileExtensionProperties.modify fileExtension
            (fun p => { p with is_valid := false })) },
       Except.ok ExportStatus.useDefaultFileExtension)
    else
      (st, Except.error
        (ExportException.exportError message st.rawItemName exporter.defaultFileExtension))

/-- export.py, _export_item: one export of the current item. Resolves the
overwrite mode; CANCEL raises, SKIP leaves the status NOT_EXPORTED_YET;
otherwise directories are created and the export call is made with the run
mode chosen by _get_run_mode, retried once with RUN_INTERACTIVE when the first
call requested it. -/
def exportItem (exporter : Exporter) (env : ExportEnvironment) (st : ExportState) :
    ExportState × Except ExportException ExportStatus :=
  let outputFilepath := getItemFilepath exporter.outputDirectory st.itemName
  let fileExtension := getFileExtension st.itemName
  let mode := handleOverwrite env outputFilepath
  let st := { st with currentOverwriteMode := mode }
  if mode = OverwriteMode.cancel then
    (st, Except.error (ExportException.exportCancel "cancelled"))
  else if mode ≠ OverwriteMode.skip then
    match env.makeDirsError with
    | some message =>
      (st, Except.error
        (ExportException.invalidOutputDirectory message st.itemName
          exporter.defaultFileExtension))
    | none =>
      match exportItemOnce exporter env
          (getRunMode exporter fileExtension st.fileExtensionProperties)
          outputFilepath fileExtension st with
      | (st, Except.ok ExportStatus.forceInteractive) =>
        exportItemOnce exporter env RunMode.interactive outputFilepath fileExtension st
      | other => other
  else
    (st, Except.ok ExportStatus.notExportedYet)

/-- export.py, export, lines 36 to 43: the first _export_item call of the item,
followed, when its status is USE_DEFAULT_FILE_EXTENSION, by renaming the item
to the default extension (when names are processed) and exactly one further
_export_item call whose status is discarded. -/
def exportWithRetry (exporter : Exporter) (env : ExportEnvironment) (st : ExportState) :
    ExportState × Except ExportException ExportStatus :=
  match exportItem exporter env st with
  | (st, Except.error e) => (st, Except.error e)
  | (st, Except.ok exportStatus) =>
    if exportStatus = ExportStatus.useDefaultFileExtension then
      let st := if exporter.processNames then processItemName exporter true st else st
      if exporter.processExport then
        match exportItem exporter env st with
        | (st, Except.error e) => (st, Except.error e)
        | (st, Except.ok _) => (st, Except.ok exportStatus)
      else (st, Except.ok exportStatus)
    else (st, Except.ok exportStatus)

/-- export.py, export, lines 45 to 46: after the export of an item, the
processed count of the file extension of the final item name is incremented
unless the resolved overwrite mode was SKIP. -/
def incrementProcessedCount (st : ExportState) : ExportState :=
  if st.currentOverwriteMode ≠ OverwriteMode.skip then
    { st with fileExtensionProperties :=
        (st.fileExtensionProperties.modify (getFileExtension st.itemName)
          (fun p => { p with processed_count := p.processed_count + 1 })) }
  else st

/-- export.py, export, lines 29 to 33: the current file extension is reset to
the default one at the start of the step, and the item name is processed when
names are processed. -/
def exportStepNamePhase (exporter : Exporter) (st : ExportState) : ExportState :=
  let st := { st with currentFileExtension := exporter.defaultFileExtension }
  if exporter.processNames then processItemName exporter false st else st

/-- export.py, export: one iteration of the per-item generator loop (the body
between two yields), combining name processing, the export with its single
default-extension retry, and the processed-count increment. An error aborts the
step and is surfaced to the caller. -/
def exportStep (exporter : Exporter) (env : ExportEnvironment) (st : ExportState) :
    ExportState × Option ExportException :=
  let st := exportStepNamePhase exporter st
  if exporter.processExport then
    match exportWithRetry exporter env st with
    | (st, Except.error e) => (st, some e)
    | (st, Except.ok _) => (incrementProcessedCount st, none)
  else (st, none)

/-- exportlayers.py, LayerExporter._process_and_export_item, lines 447 to 450:
after an item is processed and exported, the item is recorded as exported and
the processed count of its extension incremented only when the resolved
overwrite mode was not SKIP. -/
def processAndExportItemRecord (currentOverwriteMode : OverwriteMode)
    (exportedLayers : List String) (layer : String)
    (props : FileExtensionProperties) (fileExtension : String) :
    List String × FileExtensionProperties :=
  if currentOverwriteMode ≠ OverwriteMode.skip then
    (exportedLayers ++ [layer],
     props.modify fileExtension (fun p => { p with processed_count := p.processed_count + 1 }))
  else
    (exportedLayers, props)

/-- Errors propagating out of Batcher.run: the cooperative-stop cancellation
(exceptions.BatcherCancelError) or any exception raised while processing an
item, carried unmodified. -/
inductive BatcherError (ε : Type) where
  | cancel (message : String)
  | other (e : ε)
deriving DecidableEq, Repr

/-- External behavior visible to the per-item loop of Batcher._process_items:
whether stop() is called while the item at a given position is being processed,
and whether processing that item raises an exception. -/
structure ItemsEnvironment (ε : Type) where
  stopRequested : Nat → Bool
  itemError : Nat → Option ε

/-- batcher.py, Batcher._process_items, per-item loop from a given position and
stop-flag value: at the top of each iteration the stop flag is checked and, when
set, BatcherCancelError is raised; otherwise the item is processed (an exception
aborts the loop), and a stop() call made during that item sets the flag for the
next iteration. Returns the items processed to completion together with the
error, if any, that aborted the loop. -/
def processItemsFrom (env : ItemsEnvironment ε) (shouldStop : Bool) (position : Nat) :
    List String → List String × Option (BatcherError ε)
  | [] => ([], none)
  | item :: rest =>
    if shouldStop then
      ([], some (BatcherError.cancel "stopped by user"))
    else
      match env.itemError position with
      | some e => ([], some (BatcherError.other e))
      | none =>
        let result :=
          processItemsFrom env (shouldStop || env.stopRequested position) (position + 1) rest
        (item :: result.1, result.2)

/-- batcher.py, Batcher._process_items: the per-item loop started with a clear
stop flag at the first item. -/
def processItems (env : ItemsEnvironment ε) (items : List String) :
    List String × Option (BatcherError ε) :=
  processItemsFrom env false 0 items

/-- The configuration of one Batcher.run call that the run state machine
branches on. -/
structure RunConfig where
  edit_mode : Bool
  is_preview : Bool
  process_contents : Bool
deriving DecidableEq, Repr

/-- The observable side effects of Batcher._cleanup_contents: the
cleanup_contents action group is invoked; outside edit mode (or when
previewing) undo tracking is thawed on the image copy and the copy is deleted
unless it is kept and no exception occurred; in edit mode the undo group is
ended. -/
structure CleanupTrace where
  cleanupGroupInvoked : Bool
  undoThawed : Bool
  imageCopyDeleted : Bool
  undoGroupEnded : Bool
deriving DecidableEq, Repr

/-- batcher.py, Batcher._cleanup_contents, lines 659 to 685, as a record of its
side effects. -/
def cleanupContents (cfg : RunConfig) (keepImageCopy exceptionOccurred : Bool) :
    CleanupTrace :=
  { cleanupGroupInvoked := true
    undoThawed := !cfg.edit_mode || cfg.is_preview
    imageCopyDeleted :=
      (!cfg.edit_mode || cfg.is_preview) && (!keepImageCopy || exceptionOccurred)
    undoGroupEnded := cfg.edit_mode && !cfg.is_preview }

/-- The observable outcome of one Batcher.run call: the items processed to
completion, whether the working image copy was created by _setup_contents, and
the cleanup side effects (none when process_contents is false, since cleanup
only runs then). -/
structure RunTrace where
  processed : List String
  imageCopyCreated : Bool
  cleanup : Option CleanupTrace
deriving DecidableEq, Repr

/-- batcher.py, Batcher.run, lines 273 to 306: processing runs between
_setup_contents and _cleanup_contents (both only when process_contents is
true); an exception from _process_items still triggers cleanup, with the
exception-occurred flag set, and is re-raised unmodified; on success the
image copy is returned exactly when process_contents and keep_image_copy are
both set (the copy attribute is None in edit mode without preview, since
_setup_contents creates no copy there). -/
def run (cfg : RunConfig) (keepImageCopy : Bool) (env : ItemsEnvironment ε)
    (items : List String) : Except (BatcherError ε) (Option Unit) × RunTrace :=
  let createsCopy := !cfg.edit_mode || cfg.is_preview
  let imageCopy : Option Unit :=
    if cfg.process_contents && createsCopy then some () else none
  let result := processItems env items
  match result.2 with
  | some e =>
    (Except.error e,
     { processed := result.1
       imageCopyCreated := cfg.process_contents && createsCopy
       cleanup := if cfg.process_contents then some (cleanupContents cfg keepImageCopy true)
                  else none })
  | none =>
    (Except.ok (if cfg.process_contents && keepImageCopy then imageCopy else none),
     { processed := result.1
       imageCopyCreated := cfg.process_contents && createsCopy
       cleanup := if cfg.process_contents then some (cleanupContents cfg keepImageCopy false)
                  else none })

/-- The entries that Batcher._add_actions installs into the fresh Invoker, by
category: the built-in bookkeeping actions, the nested initial invoker holding
caller-added ad-hoc actions, the default rename and export procedures, and the
user-configured procedures and constraints referenced by their index in the
settings walk order. -/
inductive ActionEntry where
  | setActiveAndCurrentLayer
  | setActiveAndCurrentLayerAfterAction
  | removeLocksBeforeActionRestoreLocksAfterAction
  | initialInvoker
  | defaultRenameProcedure (pattern : String)
  | userProcedure (index : Nat)
  | defaultExportProcedure (fileExtension : String)
  | userConstraint (index : Nat)
deriving DecidableEq, Repr

/-- The settings of one user-configured action that _add_actions branches on:
the original name, the enabled flag, and whether the function setting resolves
to a callable (a None function makes _add_action_from_settings return without
adding). -/
structure ActionSettings where
  orig_name : String
  enabled : Bool
  has_function : Bool := true
deriving DecidableEq, Repr

/-- pygimplib invoker entry list: insertion order is invocation order; add
appends at the end of the group. Only the single default group matters to the
installation-order claim, so the invoker is its ordered entry list. -/
structure Invoker where
  entries : List ActionEntry := []
deriving DecidableEq, Repr

/-- pygimplib.invoker.Invoker.add restricted to the default group: appends the
entry. -/
def Invoker.add (inv : Invoker) (entry : ActionEntry) : Invoker :=
  { entries := inv.entries ++ [entry] }

/-- batcher.py, _add_action_from_settings for one user action: returns without
adding when the function setting holds None; otherwise the wrapped function is
added (the enabled flag is consulted at invocation time, not here). -/
def addActionFromSettings (inv : Invoker) (action : ActionSettings)
    (entry : ActionEntry) : Invoker :=
  if action.has_function then inv.add entry else inv

/-- batcher.py, Batcher._add_default_rename_procedure: the built-in rename
procedure is added only outside edit mode and only when no enabled user
procedure has the original name rename. -/
def addDefaultRenameProcedure (inv : Invoker) (edit_mode : Bool)
    (layerFilenamePattern : String) (procedures : List ActionSettings) : Invoker :=
  if !edit_mode
      && !(procedures.any (fun p => p.orig_name == "rename" && p.enabled)) then
    inv.add (ActionEntry.defaultRenameProcedure layerFilenamePattern)
  else inv

/-- batcher.py, Batcher._add_default_export_procedure: the built-in export
procedure is added only outside edit mode and only when no enabled user
procedure has the original name export. -/
def addDefaultExportProcedure (inv : Invoker) (edit_mode : Bool)
    (fileExtension : String) (procedures : List ActionSettings) : Invoker :=
  if !edit_mode
      && !(procedures.any (fun p => p.orig_name == "export" && p.enabled)) then
    inv.add (ActionEntry.defaultExportProcedure fileExtension)
  else inv

/-- Adds the user actions of a settings walk in order, numbering them from the
given starting index, skipping those whose function is None. -/
def addUserActions (inv : Invoker) (mk : Nat → ActionEntry) (startIndex : Nat) :
    List ActionSettings → Invoker
  | [] => inv
  | action :: rest =>
    addUserActions (addActionFromSettings inv action (mk startIndex)) mk (startIndex + 1) rest

/-- batcher.py, Batcher._add_actions, lines 574 to 601: the fixed installation
order of one run into the freshly created invoker. -/
def addActions (edit_mode : Bool) (layerFilenamePattern fileExtension : String)
    (procedures constraints : List ActionSettings) : Invoker :=
  let inv : Invoker := {}
  let inv := inv.add ActionEntry.setActiveAndCurrentLayer
  let inv := inv.add ActionEntry.setActiveAndCurrentLayerAfterAction
  let inv :=
    if edit_mode then inv.add ActionEntry.removeLocksBeforeActionRestoreLocksAfterAction
    else inv
  let inv := inv.add ActionEntry.initialInvoker
  let inv := addDefaultRenameProcedure inv edit_mode layerFilenamePattern procedures
  let inv := addUserActions inv ActionEntry.userProcedure 0 procedures
  let inv := addDefaultExportProcedure inv edit_mode fileExtension procedures
  let inv := addUserActions inv ActionEntry.userConstraint 0 constraints
  inv

/-- The flat list of user-action entries that the settings walk contributes, by
category and in configured order; used to state the installation-order claim. -/
def userEntries (mk : Nat → ActionEntry) : Nat → List ActionSettings → List ActionEntry
  | _, [] => []
  | index, action :: rest =>
    (if action.has_function then [mk index] else []) ++ userEntries mk (index + 1) rest

/-- A batcher configuration typical of an export run: default extension png,
non-interactive initial run mode, names and export both processed. -/
def sampleExporter : Exporter :=
  { defaultFileExtension := "png"
    initialRunMode := RunMode.noninteractive
    outputDirectory := "out"
    processNames := true
    processExport := true }

/-- The same configuration with the run-with-last-values initial run mode. -/
def lastValsExporter : Exporter :=
  { sampleExporter with initialRunMode := RunMode.withLastVals }

/-- Fresh per-run file-extension properties over the sample registry. -/
def freshProperties : FileExtensionProperties :=
  { formats := sampleFileFormats }

/-- A per-item export state at the start of the export phase of one item. -/
def sampleState (name : String) : ExportState :=
  { itemName := name
    rawItemName := name
    currentFileExtension := "png"
    currentOverwriteMode := OverwriteMode.notSet
    fileExtensionProperties := freshProperties
    uniquifier := {}
    callLog := [] }

/-- A host whose export callable fails once with a calling error and succeeds
on every later call; no target file exists and directory creation succeeds. -/
def callingErrorOnceEnv : ExportEnvironment :=
  { exportCallResult := fun callIndex _ _ =>
      if callIndex = 0 then some "calling error" else none
    fileExists := fun _ => false
    choose := fun _ => OverwriteMode.replace
    makeDirsError := none }

/-- A host whose export callable always fails with a message that contains both
a calling error and a cancellation indication. -/
def cancelledCallingErrorEnv : ExportEnvironment :=
  { exportCallResult := fun _ _ _ => some "calling error: export cancelled"
    fileExists := fun _ => false
    choose := fun _ => OverwriteMode.replace
    makeDirsError := none }

/-- A host whose export callable succeeds only for the png file extension (the
extension-fallback scenario of the spec, section 8). -/
def pngOnlyEnv : ExportEnvironment :=
  { exportCallResult := fun _ _ outputFilepath =>
      if getFileExtension outputFilepath = "png" then none
      else some "Unknown file type"
    fileExists := fun _ => false
    choose := fun _ => OverwriteMode.replace
    makeDirsError := none }

/-- A host on which every target file already exists and the overwrite chooser
always answers CANCEL. -/
def cancelChooserEnv : ExportEnvironment :=
  { exportCallResult := fun _ _ _ => none
    fileExists := fun _ => true
    choose := fun _ => OverwriteMode.cancel
    makeDirsError := none }

/-- A host whose export callable always fails with a cancellation message. -/
def cancelMessageEnv : ExportEnvironment :=
  { exportCallResult := fun _ _ _ => some "Export cancelled by the user"
    fileExists := fun _ => false
    choose := fun _ => OverwriteMode.replace
    makeDirsError := none }

/-- An item-loop behavior with no exceptions where stop() is called while the
item at the given position is processed. -/
def stopAtEnvironment (k : Nat) : ItemsEnvironment Unit :=
  { stopRequested := fun position => position = k
    itemError := fun _ => none }

/-- An item-loop behavior where processing the item at the given position
raises the given exception and stop() is never called. -/
def errorAtEnvironment (k : Nat) (e : ε) : ItemsEnvironment ε :=
  { stopRequested := fun _ => false
    itemError := fun position => if position = k then some e else none }

/-- A run configuration for a plain export run: not in edit mode, not a
preview, contents processed. -/
def exportRunConfig : RunConfig :=
  { edit_mode := false, is_preview := false, process_contents := true }

/-- A run configuration for edit mode without preview. -/
def editRunConfig : RunConfig :=
  { edit_mode := true, is_preview := false, process_contents := true }

/-- The state of the item named image after its name phase and a successful
export against the png-only host: renamed to image.png, one non-interactive
export call made, nothing skipped. -/
def midExportState : ExportState :=
  { itemName := "image.png"
    rawItemName := "image"
    currentFileExtension := "png"
    currentOverwriteMode := OverwriteMode.notSet
    fileExtensionProperties := freshProperties
    uniquifier := { seen := ["image.png"] }
    callLog := [RunMode.noninteractive] }

/-- Reading a key after a mutation through another key: the mutation is visible
exactly when both keys resolve to the same canonical dictionary entry. -/
theorem FileExtensionProperties.get_modify (p : FileExtensionProperties)
    (key k2 : String) (f : FileExtension → FileExtension) :
    (p.modify key f).get k2 =
      if canonicalKey p.formats key = canonicalKey p.formats k2 then f (p.get key)
      else p.get k2 := by
  by_cases h : canonicalKey p.formats key = canonicalKey p.formats k2 <;>
    simp [FileExtensionProperties.modify, FileExtensionProperties.get, lookupTable, h]

/-- Mutating through one key leaves the formats registry unchanged. -/
theorem FileExtensionProperties.modify_formats (p : FileExtensionProperties)
    (key : String) (f : FileExtension → FileExtension) :
    (p.modify key f).formats = p.formats :=
  rfl

/-- A key registered by no format of the registry has no format index. -/
theorem formatIndexOf_eq_none (formats : List FileFormat) (key : String)
    (h : ∀ j, j < formats.length →
      (formats.getD j emptyFileFormat).registersExtension key = false) :
    formatIndexOf formats key = none := by
  induction formats with
  | nil => rfl
  | cons fmt rest ih =>
    have hf : fmt.registersExtension key = false := by
      have := h 0 (by simp)
      simpa using this
    have hrest : formatIndexOf rest key = none := by
      refine ih (fun j hj => ?_)
      have := h (j + 1) (by simpa using Nat.succ_lt_succ hj)
      simpa using this
    simp [formatIndexOf, hrest, hf]

/-- A key registered by the format at index i and by no later format resolves
to index i (the constructor assigns shared objects in registry order, so the
last assignment wins). -/
theorem formatIndexOf_eq_some (formats : List FileFormat) (key : String) (i : Nat)
    (hi : i < formats.length)
    (hmem : (formats.getD i emptyFileFormat).registersExtension key = true)
    (hlater : ∀ j, j < formats.length → i < j →
      (formats.getD j emptyFileFormat).registersExtension key = false) :
    formatIndexOf formats key = some i := by
  induction formats generalizing i with
  | nil => simp at hi
  | cons fmt rest ih =>
    cases i with
    | zero =>
      have hrest : formatIndexOf rest key = none := by
        refine formatIndexOf_eq_none rest key (fun j hj => ?_)
        have := hlater (j + 1) (by simpa using Nat.succ_lt_succ hj) (Nat.succ_pos j)
        simpa using this
      have hf : fmt.registersExtension key = true := by simpa using hmem
      simp [formatIndexOf, hrest, hf]
    | succ i' =>
      have hrest : formatIndexOf rest key = some i' := by
        refine ih i' (by simpa using Nat.lt_of_succ_lt_succ hi) (by simpa using hmem)
          (fun j hj hij => ?_)
        have := hlater (j + 1) (by simpa using Nat.succ_lt_succ hj) (Nat.succ_lt_succ hij)
        simpa using this
      simp [formatIndexOf, hrest]

/-- C6 (amended): for a fresh export, the run mode is run-with-last-values when
the extension is still valid and already processed in this run, and the
configured initial run mode otherwise; the claimed equivalence between a
run-with-last-values result and that condition holds whenever the configured
initial run mode is not itself run-with-last-values. -/
theorem getRunMode_selection (exporter : Exporter) (fileExtension : String)
    (props : FileExtensionProperties) :
    (((props.get fileExtension).is_valid = true ∧
        0 < (props.get fileExtension).processed_count) →
      getRunMode exporter fileExtension props = RunMode.withLastVals) ∧
    (¬((props.get fileExtension).is_valid = true ∧
        0 < (props.get fileExtension).processed_count) →
      getRunMode exporter fileExtension props = exporter.initialRunMode) ∧
    (exporter.initialRunMode ≠ RunMode.withLastVals →
      (getRunMode exporter fileExtension props = RunMode.withLastVals ↔
        ((props.get fileExtension).is_valid = true ∧
          0 < (props.get fileExtension).processed_count))) := by
  by_cases h : (props.get fileExtension).is_valid = true ∧
      0 < (props.get fileExtension).processed_count
  · obtain ⟨h1, h2⟩ := h
    refine ⟨fun _ => ?_, fun hn => absurd ⟨h1, h2⟩ hn, fun _ => ?_⟩
    · simp [getRunMode, h1, h2]
    · simp [getRunMode, h1, h2]
  · have hmode : getRunMode exporter fileExtension props = exporter.initialRunMode := by
      unfold getRunMode
      rcases Decidable.not_and_iff_or_not.mp h with h1 | h2
      · simp [Bool.of_not_eq_true h1]
      · have : (props.get fileExtension).processed_count = 0 := Nat.eq_zero_of_not_pos h2
        simp [this]
    refine ⟨fun hc => absurd hc h, fun _ => hmode, fun hne => ?_⟩
    rw [hmode]
    exact ⟨fun he => absurd he hne, fun hc => absurd hc h⟩

/-- Witness for the amended run-mode selection: with a non-interactive initial
run mode and fresh properties, the initial run mode is used. -/
theorem getRunMode_selection_witness :
    getRunMode sampleExporter "png" freshProperties = RunMode.noninteractive :=
  (getRunMode_selection sampleExporter "png" freshProperties).2.1 (by decide)

/-- C6 counterexample: with run-with-last-values as the configured initial run
mode and fresh file-extension properties, the run mode passed to the export
call is run-with-last-values although the extension has processed count zero,
so the claimed equivalence fails as stated. -/
theorem getRunMode_counterexample :
    getRunMode lastValsExporter "png" freshProperties = RunMode.withLastVals ∧
    ¬((freshProperties.get "png").is_valid = true ∧
      0 < (freshProperties.get "png").processed_count) := by
  exact ⟨rfl, by decide⟩

/-- C9: file-extension property lookup is case-insensitive (two keys with the
same lowercasing yield the same record), and two extensions registered by the
same format of the registry (and by no later format) resolve to one shared
state object, so a mutation through one alias is observed through the other. -/
theorem fileExtensionProperties_shared_per_format :
    (∀ (p : FileExtensionProperties) (k1 k2 : String),
      pyLower k1 = pyLower k2 → p.get k1 = p.get k2) ∧
    (∀ (p : FileExtensionProperties) (k1 k2 : String) (f : FileExtension → FileExtension)
      (i : Nat),
      i < p.formats.length →
      (p.formats.getD i emptyFileFormat).registersExtension (pyLower k1) = true →
      (p.formats.getD i emptyFileFormat).registersExtension (pyLower k2) = true →
      (∀ j, j < p.formats.length → i < j →
        (p.formats.getD j emptyFileFormat).registersExtension (pyLower k1) = false ∧
        (p.formats.getD j emptyFileFormat).registersExtension (pyLower k2) = false) →
      p.get k1 = p.get k2 ∧ (p.modify k1 f).get k2 = f (p.get k1)) := by
  constructor
  · intro p k1 k2 h
    unfold FileExtensionProperties.get canonicalKey
    rw [h]
  · intro p k1 k2 f i hi hm1 hm2 hlater
    have hk1 : formatIndexOf p.formats (pyLower k1) = some i :=
      formatIndexOf_eq_some p.formats (pyLower k1) i hi hm1
        (fun j hj hij => (hlater j hj hij).1)
    have hk2 : formatIndexOf p.formats (pyLower k2) = some i :=
      formatIndexOf_eq_some p.formats (pyLower k2) i hi hm2
        (fun j hj hij => (hlater j hj hij).2)
    have hck : canonicalKey p.formats k1 = canonicalKey p.formats k2 := by
      unfold canonicalKey
      rw [hk1, hk2]
    constructor
    · unfold FileExtensionProperties.get
      rw [hck]
    · rw [FileExtensionProperties.get_modify, if_pos hck]

/-- Witness for the shared-state property at the JPEG format of the registry:
lookup of JPG and jpg agree, and invalidating jpg is observed through JPEG. -/
theorem fileExtensionProperties_shared_witness :
    freshProperties.get "JPG" = freshProperties.get "jpg" ∧
    (freshProperties.modify "jpg" (fun p => { p with is_valid := false })).get "JPEG" =
      { freshProperties.get "jpg" with is_valid := false } := by
  constructor
  · exact fileExtensionProperties_shared_per_format.1 freshProperties "JPG" "jpg" (by decide)
  · exact (fileExtensionProperties_shared_per_format.2 freshProperties "jpg" "JPEG"
      (fun p => { p with is_valid := false }) 0 (by decide) (by decide) (by decide)
      (by decide)).2

/-- Adding the user actions of a settings walk appends their entry list. -/
theorem addUserActions_entries (inv : Invoker) (mk : Nat → ActionEntry) (startIndex : Nat)
    (actions : List ActionSettings) :
    (addUserActions inv mk startIndex actions).entries =
      inv.entries ++ userEntries mk startIndex actions := by
  induction actions generalizing inv startIndex with
  | nil => simp [addUserActions, userEntries]
  | cons a rest ih =>
    by_cases h : a.has_function <;>
      simp [addUserActions, userEntries, addActionFromSettings, h, Invoker.add, ih,
        List.append_assoc]

/-- C8: within one run, actions are installed into the fresh invoker in the
fixed order: built-in bookkeeping actions (with the edit-mode lock handler when
applicable), the initial invoker holding caller-added ad-hoc procedures, the
default rename procedure (only outside edit mode and when no enabled user
procedure has original name rename), the user-configured procedures in their
configured order, the default export procedure (only outside edit mode and when
no enabled user procedure has original name export), and finally the
user-configured constraints in their configured order. -/
theorem addActions_installation_order (edit_mode : Bool)
    (pattern fileExtension : String) (procedures constraints : List ActionSettings) :
    (addActions edit_mode pattern fileExtension procedures constraints).entries =
      [ActionEntry.setActiveAndCurrentLayer, ActionEntry.setActiveAndCurrentLayerAfterAction]
      ++ (if edit_mode then [ActionEntry.removeLocksBeforeActionRestoreLocksAfterAction]
          else [])
      ++ [ActionEntry.initialInvoker]
      ++ (if !edit_mode && !(procedures.any fun p => p.orig_name == "rename" && p.enabled)
          then [ActionEntry.defaultRenameProcedure pattern] else [])
      ++ userEntries ActionEntry.userProcedure 0 procedures
      ++ (if !edit_mode && !(procedures.any fun p => p.orig_name == "export" && p.enabled)
          then [ActionEntry.defaultExportProcedure fileExtension] else [])
      ++ userEntries ActionEntry.userConstraint 0 constraints := by
  by_cases he : edit_mode <;>
    by_cases hr : (procedures.any fun p => p.orig_name == "rename" && p.enabled) <;>
      by_cases hx : (procedures.any fun p => p.orig_name == "export" && p.enabled) <;>
        simp [addActions, addDefaultRenameProcedure, addDefaultExportProcedure,
          Invoker.add, addUserActions_entries, he, hr, hx, List.append_assoc]

/-- With the stop flag already set, the loop raises at its top without
processing any further item. -/
theorem processItemsFrom_stopped (env : ItemsEnvironment ε) (position : Nat)
    (items : List String) :
    processItemsFrom env true position items =
      ([], if items.isEmpty then none
           else some (BatcherError.cancel "stopped by user")) := by
  cases items <;> simp [processItemsFrom]

/-- The per-item loop under a stop() call during the item at position k and no
item exceptions: the items up to and including position k are processed, and
the cancellation error is raised exactly when an item at position k + 1
exists. -/
theorem processItemsFrom_stop_at (env : ItemsEnvironment ε) (k : Nat)
    (herr : ∀ j, env.itemError j = none)
    (hstop : ∀ j, env.stopRequested j = true ↔ j = k) :
    ∀ (items : List String) (position : Nat), position ≤ k →
      processItemsFrom env false position items =
        (items.take (k - position + 1),
         if k - position + 1 < items.length then
           some (BatcherError.cancel "stopped by user")
         else none) := by
  intro items
  induction items with
  | nil => intro position _; simp [processItemsFrom]
  | cons item rest ih =>
    intro position hpos
    by_cases hk : position = k
    · subst hk
      have hflag : env.stopRequested position = true := (hstop position).mpr rfl
      have hrest := processItemsFrom_stopped env (position + 1) rest
      simp [processItemsFrom, herr position, hflag, hrest, Nat.sub_self]
      cases rest <;> simp
    · have hlt : position < k := Nat.lt_of_le_of_ne hpos hk
      have hflag : env.stopRequested position = false := by
        cases hsr : env.stopRequested position
        · rfl
        · exact absurd ((hstop position).mp hsr) hk
      have hrec := ih (position + 1) hlt
      have harith : k - (position + 1) + 1 = k - position := by omega
      simp [processItemsFrom, herr position, hflag, hrec, harith]

/-- C4 (amended): when stop() is called while the item at position k is being
processed (and no item raises), that item and all items before it are processed
to completion, no later item is processed, and run() raises the batch
cancellation error at the top of the next loop iteration provided an item at
position k + 1 exists; when stop() is called during the final item, the loop
completes and no cancellation error is raised. -/
theorem run_stop_semantics (cfg : RunConfig) (keep : Bool) (env : ItemsEnvironment ε)
    (items : List String) (k : Nat)
    (herr : ∀ j, env.itemError j = none)
    (hstop : ∀ j, env.stopRequested j = true ↔ j = k) :
    (run cfg keep env items).2.processed = items.take (k + 1) ∧
    (k + 1 < items.length →
      (run cfg keep env items).1 = Except.error (BatcherError.cancel "stopped by user")) ∧
    (items.length ≤ k + 1 → ∃ r, (run cfg keep env items).1 = Except.ok r) := by
  have hloop := processItemsFrom_stop_at env k herr hstop items 0 (Nat.zero_le k)
  have hpi : processItems env items =
      (items.take (k + 1),
       if k + 1 < items.length then some (BatcherError.cancel "stopped by user")
       else none) := by
    simpa [processItems] using hloop
  by_cases hlen : k + 1 < items.length
  · refine ⟨?_, fun _ => ?_, fun hle => absurd hlen (by omega)⟩ <;>
      simp [run, hpi, hlen]
  · refine ⟨?_, fun hgt => absurd hgt hlen, fun _ => ?_⟩
    · simp [run, hpi, hlen]
    · cases hres : (run cfg keep env items).1 with
      | error e =>
        exfalso
        simp [run, hpi, hlen] at hres
      | ok v => exact ⟨v, rfl⟩

/-- Witness for the amended stop semantics: stop() during item 2 of 5 processes
items 1 and 2 only and raises the cancellation error. -/
theorem run_stop_semantics_witness :
    (run exportRunConfig false (stopAtEnvironment 1) ["a", "b", "c", "d", "e"]).2.processed
      = ["a", "b"] ∧
    (run exportRunConfig false (stopAtEnvironment 1) ["a", "b", "c", "d", "e"]).1
      = Except.error (BatcherError.cancel "stopped by user") := by
  have h := run_stop_semantics exportRunConfig false (stopAtEnvironment 1)
    ["a", "b", "c", "d", "e"] 1 (fun _ => rfl) (fun j => by simp [stopAtEnvironment])
  exact ⟨h.1, h.2.1 (by decide)⟩

/-- C4 counterexample: stop() called while the last (and only) item is being
processed does not make run() raise the cancellation error; the run completes
normally with the item processed, contrary to the claim that every run with a
stop() call during an item raises the cancellation error. -/
theorem run_stop_last_item_counterexample :
    (run exportRunConfig false (stopAtEnvironment 0) ["item1"]).1 = Except.ok none ∧
    (run exportRunConfig false (stopAtEnvironment 0) ["item1"]).2.processed = ["item1"] :=
  ⟨rfl, rfl⟩

/-- C5: when item processing raises, the contents cleanup still executes (the
cleanup_contents group is invoked; outside edit mode undo tracking is thawed
and the temporary image copy is deleted even when keep_image_copy was
requested), and the original exception is re-raised unmodified to the caller
of run(). -/
theorem run_cleanup_on_exception (cfg : RunConfig) (keep : Bool)
    (env : ItemsEnvironment ε) (items : List String) (e : BatcherError ε)
    (hpc : cfg.process_contents = true)
    (herr : (processItems env items).2 = some e) :
    (run cfg keep env items).1 = Except.error e ∧
    (run cfg keep env items).2.cleanup = some (cleanupContents cfg keep true) ∧
    (cleanupContents cfg keep true).cleanupGroupInvoked = true ∧
    (cfg.edit_mode = false ∨ cfg.is_preview = true →
      (cleanupContents cfg keep true).undoThawed = true ∧
      (cleanupContents cfg keep true).imageCopyDeleted = true) := by
  refine ⟨by simp [run, herr], by simp [run, herr, hpc], rfl, fun h => ?_⟩
  rcases h with h | h <;> simp [cleanupContents, h]

/-- Witness for the exception-cleanup guarantee: one item whose processing
raises an export cancellation, with keep_image_copy requested. -/
theorem run_cleanup_on_exception_witness :
    (run exportRunConfig true
        (errorAtEnvironment 0 (ExportException.exportCancel "cancelled")) ["a"]).1
      = Except.error (BatcherError.other (ExportException.exportCancel "cancelled")) ∧
    (run exportRunConfig true
        (errorAtEnvironment 0 (ExportException.exportCancel "cancelled")) ["a"]).2.cleanup
      = some (cleanupContents exportRunConfig true true) ∧
    (cleanupContents exportRunConfig true true).undoThawed = true ∧
    (cleanupContents exportRunConfig true true).imageCopyDeleted = true := by
  have h := run_cleanup_on_exception exportRunConfig true
    (errorAtEnvironment 0 (ExportException.exportCancel "cancelled")) ["a"]
    (BatcherError.other (ExportException.exportCancel "cancelled")) rfl (by decide)
  exact ⟨h.1, h.2.1, (h.2.2.2 (Or.inl rfl)).1, (h.2.2.2 (Or.inl rfl)).2⟩

/-- C10 (amended): run() with keep_image_copy returns the working image copy
exactly when contents are processed, no exception is raised, and a copy was
created at all, which requires not being in edit mode (or previewing); with
keep_image_copy false, or with process_contents false, a successful run()
always returns None. -/
theorem run_keep_image_copy (cfg : RunConfig) (env : ItemsEnvironment ε)
    (items : List String) (keep : Bool) :
    ((run cfg true env items).1 = Except.ok (some ()) ↔
      (cfg.process_contents = true ∧ (processItems env items).2 = none ∧
        (cfg.edit_mode = false ∨ cfg.is_preview = true))) ∧
    (∀ r, (run cfg false env items).1 = Except.ok r → r = none) ∧
    (cfg.process_contents = false →
      ∀ r, (run cfg keep env items).1 = Except.ok r → r = none) := by
  cases hp : (processItems env items).2 with
  | none =>
    refine ⟨?_, ?_, ?_⟩
    · cases cfg with
      | mk em ip pc =>
        cases em <;> cases ip <;> cases pc <;> simp [run, hp]
    · intro r hr
      simp [run, hp] at hr
      exact hr.symm
    · intro hpc r hr
      simp [run, hp, hpc] at hr
      exact hr.symm
  | some e =>
    refine ⟨?_, ?_, ?_⟩
    · simp [run, hp]
    · intro r hr
      simp [run, hp] at hr
    · intro _ r hr
      simp [run, hp] at hr

/-- Witness for the amended keep-image-copy behavior: a plain export run with
keep_image_copy returns the image copy. -/
theorem run_keep_image_copy_witness :
    (run exportRunConfig true (stopAtEnvironment 99) ["a"]).1 = Except.ok (some ()) :=
  (run_keep_image_copy exportRunConfig (stopAtEnvironment 99) ["a"] true).1.mpr
    ⟨rfl, by decide, Or.inl rfl⟩

/-- C10 counterexample: in edit mode without preview, with process_contents
true, keep_image_copy requested and no exception, run() returns None rather
than a working image copy, because _setup_contents creates no copy there. -/
theorem run_keep_image_copy_counterexample :
    (run editRunConfig true (stopAtEnvironment 99) ["a"]).1 = Except.ok none ∧
    editRunConfig.process_contents = true ∧
    (processItems (stopAtEnvironment 99) (["a"] : List String)).2 = none :=
  ⟨rfl, rfl, rfl⟩

/-- C1 (amended): an export call failing with a message that contains
"calling error" and does not indicate cancellation, under a non-interactive or
run-with-last-values run mode, is retried exactly once with the interactive run
mode; when the retry succeeds, the final status is EXPORT_SUCCESSFUL, no error
reaches the caller, and exactly two underlying calls were made. -/
theorem exportItem_calling_error_retry (exporter : Exporter) (env : ExportEnvironment)
    (st : ExportState) (message : String)
    (hmodec : handleOverwrite env (getItemFilepath exporter.outputDirectory st.itemName)
        ≠ OverwriteMode.cancel)
    (hmodes : handleOverwrite env (getItemFilepath exporter.outputDirectory st.itemName)
        ≠ OverwriteMode.skip)
    (hdirs : env.makeDirsError = none)
    (hrm : getRunMode exporter (getFileExtension st.itemName) st.fileExtensionProperties
          = RunMode.noninteractive ∨
        getRunMode exporter (getFileExtension st.itemName) st.fileExtensionProperties
          = RunMode.withLastVals)
    (hfail : env.exportCallResult st.callLog.length
        (getRunMode exporter (getFileExtension st.itemName) st.fileExtensionProperties)
        (getItemFilepath exporter.outputDirectory st.itemName) = some message)
    (hcalling : strContains (pyLower message) "calling error" = true)
    (hnotcanceled : wasExportCanceledByUser message = false)
    (hretry : env.exportCallResult (st.callLog.length + 1) RunMode.interactive
        (getItemFilepath exporter.outputDirectory st.itemName) = none) :
    exportItem exporter env st =
      ({ st with
          currentOverwriteMode :=
            handleOverwrite env (getItemFilepath exporter.outputDirectory st.itemName)
          callLog := st.callLog ++
            [getRunMode exporter (getFileExtension st.itemName) st.fileExtensionProperties,
             RunMode.interactive] },
       Except.ok ExportStatus.exportSuccessful) := by
  have hforce : shouldExportAgainWithInteractiveRunMode message
      (getRunMode exporter (getFileExtension st.itemName) st.fileExtensionProperties)
        = true := by
    rcases hrm with h | h <;>
      simp [shouldExportAgainWithInteractiveRunMode, h, hcalling]
  simp [exportItem, exportItemOnce, hmodec, hmodes, hdirs, hfail, hnotcanceled, hforce,
    hretry, List.append_assoc]

/-- Witness for the calling-error retry: the host failing once with a calling
error under the non-interactive mode and succeeding interactively yields a
successful status after exactly the two calls non-interactive then
interactive. -/
theorem exportItem_calling_error_retry_witness :
    (exportItem sampleExporter callingErrorOnceEnv (sampleState "image.png")).2
        = Except.ok ExportStatus.exportSuccessful ∧
    (exportItem sampleExporter callingErrorOnceEnv (sampleState "image.png")).1.callLog
        = [RunMode.noninteractive, RunMode.interactive] := by
  have h := exportItem_calling_error_retry sampleExporter callingErrorOnceEnv
    (sampleState "image.png") "calling error" (by decide) (by decide) rfl
    (Or.inl (by decide)) (by decide) (by decide) (by decide) (by decide)
  rw [h]
  exact ⟨rfl, by decide⟩

/-- C1 counterexample: a failure message that contains "calling error" but also
indicates cancellation is not retried at all; the cancellation check runs
first, a cancellation error is raised and only one underlying call is made,
although the message contains "calling error" and the run mode is
non-interactive. -/
theorem exportItem_calling_error_counterexample :
    (exportItem sampleExporter cancelledCallingErrorEnv (sampleState "image.png")).2
        = Except.error (ExportException.exportCancel "calling error: export cancelled") ∧
    (exportItem sampleExporter cancelledCallingErrorEnv (sampleState "image.png")).1.callLog
        = [RunMode.noninteractive] ∧
    strContains (pyLower "calling error: export cancelled") "calling error" = true ∧
    getRunMode sampleExporter (getFileExtension (sampleState "image.png").itemName)
        (sampleState "image.png").fileExtensionProperties = RunMode.noninteractive :=
  ⟨rfl, rfl, by decide, by decide⟩

/-- The per-item loop when the first item exception occurs at position k and
stop() is never called: the items before position k are processed and the
exception aborts the loop, wrapped unmodified. -/
theorem processItemsFrom_error_at (env : ItemsEnvironment ε) (k : Nat) (e : ε)
    (herr0 : ∀ j, j < k → env.itemError j = none)
    (herrk : env.itemError k = some e)
    (hstop : ∀ j, env.stopRequested j = false) :
    ∀ (items : List String) (position : Nat), position ≤ k → k - position < items.length →
      processItemsFrom env false position items =
        (items.take (k - position), some (BatcherError.other e)) := by
  intro items
  induction items with
  | nil => intro position _ habs; simp at habs
  | cons item rest ih =>
    intro position hpos hlen
    by_cases hk : position = k
    · subst hk
      simp [processItemsFrom, herrk, Nat.sub_self]
    · have hlt : position < k := Nat.lt_of_le_of_ne hpos hk
      have hrec := ih (position + 1) hlt (by simp at hlen; omega)
      have harith : k - position = (k - (position + 1)) + 1 := by omega
      simp [processItemsFrom, herr0 position hlt, hstop position, hrec, harith]

/-- C3: a CANCEL answer from the overwrite chooser makes _export_item raise the
cancellation error before any export call; an export-call failure message that
indicates cancellation makes _export_item_once raise the cancellation error
carrying that message; such errors propagate unhandled through the retry logic
and the per-item export step; and an exception raised while processing an item
aborts the whole run, leaving all later items unprocessed and reaching the
caller of run() unmodified. -/
theorem export_cancellation_aborts_run :
    (∀ (exporter : Exporter) (env : ExportEnvironment) (st : ExportState),
      handleOverwrite env (getItemFilepath exporter.outputDirectory st.itemName)
          = OverwriteMode.cancel →
      exportItem exporter env st =
        ({ st with currentOverwriteMode := OverwriteMode.cancel },
         Except.error (ExportException.exportCancel "cancelled"))) ∧
    (∀ (exporter : Exporter) (env : ExportEnvironment) (runMode : RunMode)
      (outputFilepath fileExtension message : String) (st : ExportState),
      env.exportCallResult st.callLog.length runMode outputFilepath = some message →
      wasExportCanceledByUser message = true →
      exportItemOnce exporter env runMode outputFilepath fileExtension st =
        ({ st with callLog := st.callLog ++ [runMode] },
         Except.error (ExportException.exportCancel message))) ∧
    (∀ (exporter : Exporter) (env : ExportEnvironment) (st st1 : ExportState)
      (e : ExportException),
      exportItem exporter env st = (st1, Except.error e) →
      exportWithRetry exporter env st = (st1, Except.error e)) ∧
    (∀ (exporter : Exporter) (env : ExportEnvironment) (st st1 : ExportState)
      (e : ExportException),
      exporter.processExport = true →
      exportWithRetry exporter env (exportStepNamePhase exporter st) = (st1, Except.error e) →
      exportStep exporter env st = (st1, some e)) ∧
    (∀ (cfg : RunConfig) (keep : Bool) (env : ItemsEnvironment ExportException)
      (items : List String) (k : Nat) (e : ExportException),
      (∀ j, j < k → env.itemError j = none) →
      env.itemError k = some e →
      (∀ j, env.stopRequested j = false) →
      k < items.length →
      (run cfg keep env items).1 = Except.error (BatcherError.other e) ∧
      (run cfg keep env items).2.processed = items.take k) := by
  refine ⟨?_, ?_, ?_, ?_, ?_⟩
  · intro exporter env st hmode
    simp [exportItem, hmode]
  · intro exporter env runMode outputFilepath fileExtension message st hcall hcanceled
    simp [exportItemOnce, hcall, hcanceled]
  · intro exporter env st st1 e hitem
    simp [exportWithRetry, hitem]
  · intro exporter env st st1 e hexp hretry
    simp [exportStep, hexp, hretry]
  · intro cfg keep env items k e herr0 herrk hstop hlen
    have hloop := processItemsFrom_error_at env k e herr0 herrk hstop items 0
      (Nat.zero_le k) (by simpa using hlen)
    have hpi : processItems env items = (items.take k, some (BatcherError.other e)) := by
      simpa [processItems] using hloop
    exact ⟨by simp [run, hpi], by simp [run, hpi]⟩

/-- Witness for the cancellation behavior: a chooser answering CANCEL raises
the cancellation error with no export call, and an export run whose second item
raises the cancellation aborts with items three onward untouched. -/
theorem export_cancellation_witness :
    exportItem sampleExporter cancelChooserEnv (sampleState "image.png") =
      ({ sampleState "image.png" with currentOverwriteMode := OverwriteMode.cancel },
       Except.error (ExportException.exportCancel "cancelled")) ∧
    (exportItemOnce sampleExporter cancelMessageEnv RunMode.noninteractive "out/image.png"
        "png" (sampleState "image.png")).2
      = Except.error (ExportException.exportCancel "Export cancelled by the user") ∧
    (run exportRunConfig false
        (errorAtEnvironment 1 (ExportException.exportCancel "cancelled"))
        ["a", "b", "c"]).1
      = Except.error (BatcherError.other (ExportException.exportCancel "cancelled")) ∧
    (run exportRunConfig false
        (errorAtEnvironment 1 (ExportException.exportCancel "cancelled"))
        ["a", "b", "c"]).2.processed = ["a"] := by
  have h1 := export_cancellation_aborts_run.1 sampleExporter cancelChooserEnv
    (sampleState "image.png") (by decide)
  have h2 := export_cancellation_aborts_run.2.1 sampleExporter cancelMessageEnv
    RunMode.noninteractive "out/image.png" "png" "Export cancelled by the user"
    (sampleState "image.png") (by decide) (by decide)
  have h5 := export_cancellation_aborts_run.2.2.2.2 exportRunConfig false
    (errorAtEnvironment 1 (ExportException.exportCancel "cancelled")) ["a", "b", "c"] 1
    (ExportException.exportCancel "cancelled") (by decide) (by decide) (fun _ => rfl)
    (by decide)
  refine ⟨h1, ?_, h5.1, by rw [h5.2]; rfl⟩
  rw [h2]

/-- Keys resolving to the same canonical entry read the same record. -/
theorem FileExtensionProperties.get_congr (p : FileExtensionProperties) (k1 k2 : String)
    (h : canonicalKey p.formats k1 = canonicalKey p.formats k2) :
    p.get k1 = p.get k2 := by
  unfold FileExtensionProperties.get
  rw [h]

/-- A mutation that never turns is_valid back on preserves an invalidated
extension, whatever key it goes through. -/
theorem modify_preserves_invalid (p : FileExtensionProperties) (key k2 : String)
    (f : FileExtension → FileExtension)
    (hf : ∀ q, (f q).is_valid = q.is_valid ∨ (f q).is_valid = false)
    (h : (p.get k2).is_valid = false) :
    ((p.modify key f).get k2).is_valid = false := by
  rw [FileExtensionProperties.get_modify]
  by_cases hc : canonicalKey p.formats key = canonicalKey p.formats k2
  · rw [if_pos hc]
    rcases hf (p.get key) with h1 | h1
    · rw [h1, FileExtensionProperties.get_congr p key k2 hc]
      exact h
    · exact h1
  · rw [if_neg hc]
    exact h

/-- One export call never turns an invalidated extension valid again. -/
theorem exportItemOnce_preserves_invalid (exporter : Exporter) (env : ExportEnvironment)
    (runMode : RunMode) (outputFilepath fileExtension key : String) (st : ExportState)
    (h : (st.fileExtensionProperties.get key).is_valid = false) :
    (((exportItemOnce exporter env runMode outputFilepath fileExtension
        st).1).fileExtensionProperties.get key).is_valid = false := by
  cases hcall : env.exportCallResult st.callLog.length runMode outputFilepath with
  | none => simpa [exportItemOnce, hcall] using h
  | some message =>
    by_cases h1 : wasExportCanceledByUser message
    · simpa [exportItemOnce, hcall, h1] using h
    · by_cases h2 : shouldExportAgainWithInteractiveRunMode message runMode
      · simpa [exportItemOnce, hcall, h1, h2] using h
      · by_cases h3 : shouldExportAgainWithDefaultFileExtension
            exporter.defaultFileExtension fileExtension
        · simp [exportItemOnce, hcall, h1, h2, h3]
          exact modify_preserves_invalid _ _ _ _ (fun q => Or.inr rfl) h
        · simpa [exportItemOnce, hcall, h1, h2, h3] using h

/-- One _export_item call never turns an invalidated extension valid again. -/
theorem exportItem_preserves_invalid (exporter : Exporter) (env : ExportEnvironment)
    (key : String) (st : ExportState)
    (h : (st.fileExtensionProperties.get key).is_valid = false) :
    (((exportItem exporter env st).1).fileExtensionProperties.get key).is_valid
      = false := by
  unfold exportItem
  by_cases hc : handleOverwrite env (getItemFilepath exporter.outputDirectory st.itemName)
      = OverwriteMode.cancel
  · simpa [hc] using h
  · by_cases hs : handleOverwrite env (getItemFilepath exporter.outputDirectory st.itemName)
        = OverwriteMode.skip
    · simpa [hc, hs] using h
    · cases hd : env.makeDirsError with
      | some message => simpa [hc, hs, hd] using h
      | none =>
        have hA := exportItemOnce_preserves_invalid exporter env
          (getRunMode exporter (getFileExtension st.itemName) st.fileExtensionProperties)
          (getItemFilepath exporter.outputDirectory st.itemName)
          (getFileExtension st.itemName) key
          { st with currentOverwriteMode :=
              handleOverwrite env (getItemFilepath exporter.outputDirectory st.itemName) }
          (by simpa using h)
        rcases hpair : exportItemOnce exporter env
            (getRunMode exporter (getFileExtension st.itemName) st.fileExtensionProperties)
            (getItemFilepath exporter.outputDirectory st.itemName)
            (getFileExtension st.itemName)
            { st with currentOverwriteMode :=
                handleOverwrite env (getItemFilepath exporter.outputDirectory st.itemName) }
          with ⟨stA, resA⟩
        rw [hpair] at hA
        cases resA with
        | error e => simpa [hc, hs, hd, hpair] using hA
        | ok status =>
          cases status <;>
            simp [hc, hs, hd, hpair] <;>
            first
              | exact hA
              | exact exportItemOnce_preserves_invalid exporter env RunMode.interactive
                  (getItemFilepath exporter.outputDirectory st.itemName)
                  (getFileExtension st.itemName) key stA hA

/-- Renaming an item does not touch the file-extension properties. -/
theorem processItemName_props (exporter : Exporter) (force : Bool) (st : ExportState) :
    (processItemName exporter force st).fileExtensionProperties
      = st.fileExtensionProperties :=
  rfl

/-- The export-with-retry phase never turns an invalidated extension valid. -/
theorem exportWithRetry_preserves_invalid (exporter : Exporter) (env : ExportEnvironment)
    (key : String) (st : ExportState)
    (h : (st.fileExtensionProperties.get key).is_valid = false) :
    (((exportWithRetry exporter env st).1).fileExtensionProperties.get key).is_valid
      = false := by
  have hA := exportItem_preserves_invalid exporter env key st h
  rcases hpair : exportItem exporter env st with ⟨stA, resA⟩
  rw [hpair] at hA
  cases resA with
  | error e => simpa [exportWithRetry, hpair] using hA
  | ok status =>
    by_cases hu : status = ExportStatus.useDefaultFileExtension
    · subst hu
      by_cases hn : exporter.processNames
      · by_cases he : exporter.processExport
        · have hB := exportItem_preserves_invalid exporter env key
            (processItemName exporter true stA) (by rw [processItemName_props]; exact hA)
          rcases hpair2 : exportItem exporter env (processItemName exporter true stA)
            with ⟨stB, resB⟩
          rw [hpair2] at hB
          cases resB <;> simpa [exportWithRetry, hpair, hn, he, hpair2] using hB
        · simpa [exportWithRetry, hpair, hn, he, processItemName_props] using hA
      · by_cases he : exporter.processExport
        · have hB := exportItem_preserves_invalid exporter env key stA hA
          rcases hpair2 : exportItem exporter env stA with ⟨stB, resB⟩
          rw [hpair2] at hB
          cases resB <;> simpa [exportWithRetry, hpair, hn, he, hpair2] using hB
        · simpa [exportWithRetry, hpair, hn, he] using hA
    · cases status <;> simp at hu <;> simpa [exportWithRetry, hpair] using hA

/-- The processed-count increment never turns an invalidated extension valid. -/
theorem incrementProcessedCount_preserves_invalid (key : String) (st : ExportState)
    (h : (st.fileExtensionProperties.get key).is_valid = false) :
    ((incrementProcessedCount st).fileExtensionProperties.get key).is_valid = false := by
  unfold incrementProcessedCount
  by_cases hm : st.currentOverwriteMode ≠ OverwriteMode.skip
  · rw [if_pos hm]
    exact modify_preserves_invalid _ _ _ _ (fun q => Or.inl rfl) h
  · simpa [hm] using h

/-- The name phase does not touch the file-extension properties. -/
theorem exportStepNamePhase_props (exporter : Exporter) (st : ExportState) :
    (exportStepNamePhase exporter st).fileExtensionProperties
      = st.fileExtensionProperties := by
  unfold exportStepNamePhase
  by_cases hn : exporter.processNames <;> simp [hn, processItemName_props]

/-- An extension invalidated in this run stays invalid through any whole
export step: no step of the engine ever sets is_valid back to true. -/
theorem exportStep_preserves_invalid (exporter : Exporter) (env : ExportEnvironment)
    (key : String) (st : ExportState)
    (h : (st.fileExtensionProperties.get key).is_valid = false) :
    (((exportStep exporter env st).1).fileExtensionProperties.get key).is_valid
      = false := by
  by_cases hexp : exporter.processExport
  · have hA := exportWithRetry_preserves_invalid exporter env key
      (exportStepNamePhase exporter st) (by rw [exportStepNamePhase_props]; exact h)
    rcases hpair : exportWithRetry exporter env (exportStepNamePhase exporter st)
      with ⟨stA, resA⟩
    rw [hpair] at hA
    cases resA with
    | error e => simpa [exportStep, hexp, hpair] using hA
    | ok status =>
      simp [exportStep, hexp, hpair]
      exact incrementProcessedCount_preserves_invalid key stA hA
  · have hprops := exportStepNamePhase_props exporter st
    simpa [exportStep, hexp, hprops] using h

/-- C2: when the export call of an item fails, not by cancellation and not by a
calling error under a non-interactive run mode, while the file extension used
differs from the configured default, the engine marks that extension invalid,
the first _export_item reports USE_DEFAULT_FILE_EXTENSION, the item is renamed
to the default extension, and the export is retried exactly once (here it
succeeds, for a total of two underlying calls); the invalidation is sticky:
no later export step ever sets is_valid back to true. -/
theorem exportWithRetry_default_extension_fallback (exporter : Exporter)
    (env : ExportEnvironment) (st : ExportState) (message : String)
    (hnames : exporter.processNames = true)
    (hexp : exporter.processExport = true)
    (hextdiff : getFileExtension st.itemName ≠ exporter.defaultFileExtension)
    (hmode1c : handleOverwrite env (getItemFilepath exporter.outputDirectory st.itemName)
        ≠ OverwriteMode.cancel)
    (hmode1s : handleOverwrite env (getItemFilepath exporter.outputDirectory st.itemName)
        ≠ OverwriteMode.skip)
    (hdirs : env.makeDirsError = none)
    (hfail : env.exportCallResult st.callLog.length
        (getRunMode exporter (getFileExtension st.itemName) st.fileExtensionProperties)
        (getItemFilepath exporter.outputDirectory st.itemName) = some message)
    (hnotcanceled : wasExportCanceledByUser message = false)
    (hnotcalling : shouldExportAgainWithInteractiveRunMode message
        (getRunMode exporter (getFileExtension st.itemName) st.fileExtensionProperties)
        = false)
    (hseen : getFilenameWithNewFileExtension st.itemName exporter.defaultFileExtension
        ∉ st.uniquifier.seen)
    (hmode2c : handleOverwrite env (getItemFilepath exporter.outputDirectory
        (getFilenameWithNewFileExtension st.itemName exporter.defaultFileExtension))
        ≠ OverwriteMode.cancel)
    (hmode2s : handleOverwrite env (getItemFilepath exporter.outputDirectory
        (getFilenameWithNewFileExtension st.itemName exporter.defaultFileExtension))
        ≠ OverwriteMode.skip)
    (hsucc : ∀ runMode, env.exportCallResult (st.callLog.length + 1) runMode
        (getItemFilepath exporter.outputDirectory
          (getFilenameWithNewFileExtension st.itemName exporter.defaultFileExtension))
        = none) :
    (exportWithRetry exporter env st).2 = Except.ok ExportStatus.useDefaultFileExtension ∧
    (exportWithRetry exporter env st).1.itemName
        = getFilenameWithNewFileExtension st.itemName exporter.defaultFileExtension ∧
    ((exportWithRetry exporter env st).1.fileExtensionProperties.get
        (getFileExtension st.itemName)).is_valid = false ∧
    (exportWithRetry exporter env st).1.callLog.length = st.callLog.length + 2 ∧
    (∀ (exporter' : Exporter) (env' : ExportEnvironment) (st' : ExportState)
      (key : String),
      (st'.fileExtensionProperties.get key).is_valid = false →
      (((exportStep exporter' env' st').1).fileExtensionProperties.get key).is_valid
        = false) := by
  have hdefault : shouldExportAgainWithDefaultFileExtension exporter.defaultFileExtension
      (getFileExtension st.itemName) = true := by
    simpa [shouldExportAgainWithDefaultFileExtension] using hextdiff
  have hmain : exportWithRetry exporter env st =
      ({ st with
          itemName :=
            getFilenameWithNewFileExtension st.itemName exporter.defaultFileExtension
          currentOverwriteMode :=
            handleOverwrite env (getItemFilepath exporter.outputDirectory
              (getFilenameWithNewFileExtension st.itemName exporter.defaultFileExtension))
          fileExtensionProperties :=
            (st.fileExtensionProperties.modify (getFileExtension st.itemName)
              (fun p => { p with is_valid := false }))
          uniquifier :=
            { seen := st.uniquifier.seen ++
                [getFilenameWithNewFileExtension st.itemName
                  exporter.defaultFileExtension] }
          callLog := st.callLog ++
            [getRunMode exporter (getFileExtension st.itemName)
              st.fileExtensionProperties,
             getRunMode exporter
              (getFileExtension
                (getFilenameWithNewFileExtension st.itemName
                  exporter.defaultFileExtension))
              (st.fileExtensionProperties.modify (getFileExtension st.itemName)
                (fun p => { p with is_valid := false }))] },
       Except.ok ExportStatus.useDefaultFileExtension) := by
    simp [exportWithRetry, exportItem, exportItemOnce, processItemName, validateName,
      ItemUniquifier.uniquify, hnames, hexp, hmode1c, hmode1s, hmode2c, hmode2s, hdirs,
      hfail, hnotcanceled, hnotcalling, hdefault, hseen, hsucc, List.append_assoc]
  refine ⟨by rw [hmain], by rw [hmain], ?_, by rw [hmain]; simp, ?_⟩
  · rw [hmain]
    simp [FileExtensionProperties.get_modify]
  · exact fun exporter' env' st' key h =>
      exportStep_preserves_invalid exporter' env' key st' h

/-- Witness for the extension fallback, the scenario of the spec: an item named
image.xyz against a host that only succeeds for png, with default extension
png, is renamed to image.png, retried once successfully, and xyz is marked
invalid for the rest of the run. -/
theorem exportWithRetry_default_extension_fallback_witness :
    (exportWithRetry sampleExporter pngOnlyEnv (sampleState "image.xyz")).2
        = Except.ok ExportStatus.useDefaultFileExtension ∧
    (exportWithRetry sampleExporter pngOnlyEnv (sampleState "image.xyz")).1.itemName
        = getFilenameWithNewFileExtension "image.xyz" "png" ∧
    ((exportWithRetry sampleExporter pngOnlyEnv
        (sampleState "image.xyz")).1.fileExtensionProperties.get
        (getFileExtension "image.xyz")).is_valid = false ∧
    (exportWithRetry sampleExporter pngOnlyEnv (sampleState "image.xyz")).1.callLog.length
        = 2 := by
  have h := exportWithRetry_default_extension_fallback sampleExporter pngOnlyEnv
    (sampleState "image.xyz") "Unknown file type" rfl rfl (by decide) (by decide)
    (by decide) rfl (by decide) (by decide) (by decide) (by decide) (by decide)
    (by decide) (fun _ => rfl)
  exact ⟨h.1, h.2.1, h.2.2.1, h.2.2.2.1⟩

/-- C7: when the export phase of an item completes without raising, the export
step ends with the processed-count increment step applied to the final state;
that step increments the processed count of the extension of the final item
name by exactly one when the resolved overwrite mode is not SKIP and leaves the
whole state unchanged when it is SKIP; likewise, the exporter records an item
as exported (and counts it) only when the overwrite mode is not SKIP. -/
theorem exportStep_processed_count (exporter : Exporter) (env : ExportEnvironment)
    (st stmid : ExportState) (status : ExportStatus)
    (hexp : exporter.processExport = true)
    (hmid : exportWithRetry exporter env (exportStepNamePhase exporter st)
        = (stmid, Except.ok status)) :
    exportStep exporter env st = (incrementProcessedCount stmid, none) ∧
    (stmid.currentOverwriteMode ≠ OverwriteMode.skip →
      ((incrementProcessedCount stmid).fileExtensionProperties.get
          (getFileExtension stmid.itemName)).processed_count
        = (stmid.fileExtensionProperties.get
            (getFileExtension stmid.itemName)).processed_count + 1) ∧
    (stmid.currentOverwriteMode = OverwriteMode.skip →
      incrementProcessedCount stmid = stmid) ∧
    (∀ (mode : OverwriteMode) (exported : List String) (layer : String)
      (props : FileExtensionProperties) (ext : String),
      (mode = OverwriteMode.skip →
        processAndExportItemRecord mode exported layer props ext = (exported, props)) ∧
      (mode ≠ OverwriteMode.skip →
        (processAndExportItemRecord mode exported layer props ext).1
          = exported ++ [layer] ∧
        ((processAndExportItemRecord mode exported layer props ext).2.get
            ext).processed_count = (props.get ext).processed_count + 1)) := by
  refine ⟨by simp [exportStep, hexp, hmid], fun hm => ?_, fun hm => ?_, ?_⟩
  · unfold incrementProcessedCount
    rw [if_pos hm, FileExtensionProperties.get_modify]
    simp
  · unfold incrementProcessedCount
    rw [if_neg (by simpa using hm)]
  · intro mode exported layer props ext
    constructor
    · intro hm
      unfold processAndExportItemRecord
      rw [if_neg (by simpa using hm)]
    · intro hm
      unfold processAndExportItemRecord
      rw [if_pos hm]
      refine ⟨rfl, ?_⟩
      rw [FileExtensionProperties.get_modify]
      simp

/-- Witness for the processed-count bookkeeping: the item named image exported
once as image.png against the png-only host ends with processed count one for
png and the record step appends the layer when not skipped. -/
theorem exportStep_processed_count_witness :
    exportStep sampleExporter pngOnlyEnv (sampleState "image")
      = (incrementProcessedCount midExportState, none) ∧
    ((incrementProcessedCount midExportState).fileExtensionProperties.get
        (getFileExtension midExportState.itemName)).processed_count
      = (midExportState.fileExtensionProperties.get
          (getFileExtension midExportState.itemName)).processed_count + 1 ∧
    processAndExportItemRecord OverwriteMode.skip ["kept"] "layer1" freshProperties "png"
      = (["kept"], freshProperties) := by
  have h := exportStep_processed_count sampleExporter pngOnlyEnv (sampleState "image")
    midExportState ExportStatus.exportSuccessful rfl rfl
  exact ⟨h.1, h.2.1 (by decide),
    (h.2.2.2 OverwriteMode.skip ["kept"] "layer1" freshProperties "png").1 rfl⟩

end GimpBatcher
